import Mathlib

/-!
Shallow embedding of the `dutchdutch-ascend` client library
(connection multiplexer, discovery engine, room state parser)
and proofs about the frozen specification claims.

JSON numbers are modelled as rationals; the claims under study never
depend on floating-point rounding.  Correlation tokens (`uuid::Uuid`)
are modelled as strings in canonical (lower-case) form.
-/

namespace Ascend

/-- JSON values (`serde_json::Value`).  Object fields are kept as an
ordered association list: for the default `serde_json` feature set the
map is a `BTreeMap`, so the list stands for the map's iteration order. -/
inductive Json where
  | null
  | bool (b : Bool)
  | num (n : Rat)
  | str (s : String)
  | arr (elems : List Json)
  | obj (fields : List (String × Json))

mutual

def Json.decEq : (a b : Json) → Decidable (a = b)
  | .null, .null => isTrue rfl
  | .null, .bool _ => isFalse fun h => Json.noConfusion h
  | .null, .num _ => isFalse fun h => Json.noConfusion h
  | .null, .str _ => isFalse fun h => Json.noConfusion h
  | .null, .arr _ => isFalse fun h => Json.noConfusion h
  | .null, .obj _ => isFalse fun h => Json.noConfusion h
  | .bool _, .null => isFalse fun h => Json.noConfusion h
  | .bool a, .bool b =>
    match instDecidableEqBool a b with
    | isTrue h => isTrue (by rw [h])
    | isFalse h => isFalse fun hh => h (Json.bool.inj hh)
  | .bool _, .num _ => isFalse fun h => Json.noConfusion h
  | .bool _, .str _ => isFalse fun h => Json.noConfusion h
  | .bool _, .arr _ => isFalse fun h => Json.noConfusion h
  | .bool _, .obj _ => isFalse fun h => Json.noConfusion h
  | .num _, .null => isFalse fun h => Json.noConfusion h
  | .num _, .bool _ => isFalse fun h => Json.noConfusion h
  | .num a, .num b =>
    if h : a = b then isTrue (by rw [h])
    else isFalse fun hh => h (Json.num.inj hh)
  | .num _, .str _ => isFalse fun h => Json.noConfusion h
  | .num _, .arr _ => isFalse fun h => Json.noConfusion h
  | .num _, .obj _ => isFalse fun h => Json.noConfusion h
  | .str _, .null => isFalse fun h => Json.noConfusion h
  | .str _, .bool _ => isFalse fun h => Json.noConfusion h
  | .str _, .num _ => isFalse fun h => Json.noConfusion h
  | .str a, .str b =>
    if h : a = b then isTrue (by rw [h])
    else isFalse fun hh => h (Json.str.inj hh)
  | .str _, .arr _ => isFalse fun h => Json.noConfusion h
  | .str _, .obj _ => isFalse fun h => Json.noConfusion h
  | .arr _, .null => isFalse fun h => Json.noConfusion h
  | .arr _, .bool _ => isFalse fun h => Json.noConfusion h
  | .arr _, .num _ => isFalse fun h => Json.noConfusion h
  | .arr _, .str _ => isFalse fun h => Json.noConfusion h
  | .arr a, .arr b =>
    match Json.decEqList a b with
    | isTrue h => isTrue (by rw [h])
    | isFalse h => isFalse fun hh => h (Json.arr.inj hh)
  | .arr _, .obj _ => isFalse fun h => Json.noConfusion h
  | .obj _, .null => isFalse fun h => Json.noConfusion h
  | .obj _, .bool _ => isFalse fun h => Json.noConfusion h
  | .obj _, .num _ => isFalse fun h => Json.noConfusion h
  | .obj _, .str _ => isFalse fun h => Json.noConfusion h
  | .obj _, .arr _ => isFalse fun h => Json.noConfusion h
  | .obj a, .obj b =>
    match Json.decEqFields a b with
    | isTrue h => isTrue (by rw [h])
    | isFalse h => isFalse fun hh => h (Json.obj.inj hh)

def Json.decEqList : (a b : List Json) → Decidable (a = b)
  | [], [] => isTrue rfl
  | [], _ :: _ => isFalse fun h => List.noConfusion h
  | _ :: _, [] => isFalse fun h => List.noConfusion h
  | x :: xs, y :: ys =>
    match Json.decEq x y with
    | isTrue h1 =>
      match Json.decEqList xs ys with
      | isTrue h2 => isTrue (by rw [h1, h2])
      | isFalse h2 => isFalse fun hh => h2 (List.cons.inj hh).2
    | isFalse h1 => isFalse fun hh => h1 (List.cons.inj hh).1

def Json.decEqFields : (a b : List (String × Json)) → Decidable (a = b)
  | [], [] => isTrue rfl
  | [], _ :: _ => isFalse fun h => List.noConfusion h
  | _ :: _, [] => isFalse fun h => List.noConfusion h
  | (s, x) :: xs, (t, y) :: ys =>
    if hs : s = t then
      match Json.decEq x y with
      | isTrue h1 =>
        match Json.decEqFields xs ys with
        | isTrue h2 => isTrue (by rw [hs, h1, h2])
        | isFalse h2 => isFalse fun hh => h2 (List.cons.inj hh).2
      | isFalse h1 =>
        isFalse fun hh => h1 (congrArg Prod.snd (List.cons.inj hh).1)
    else
      isFalse fun hh => hs (congrArg Prod.fst (List.cons.inj hh).1)

end

instance : DecidableEq Json := Json.decEq

/-- The `Value::get` on an object (`serde_json`): field lookup by key. -/
def Json.get : Json → String → Option Json
  | .obj fields, key => List.lookup key fields
  | _, _ => none

/-- The `Value::as_str`. -/
def Json.asStr : Json → Option String
  | .str s => some s
  | _ => none

/-- The `Value::as_bool`. -/
def Json.asBool : Json → Option Bool
  | .bool b => some b
  | _ => none

/-- The `Value::as_array`. -/
def Json.asArr : Json → Option (List Json)
  | .arr elems => some elems
  | _ => none

/-- The `Value::as_object`. -/
def Json.asObj : Json → Option (List (String × Json))
  | .obj fields => some fields
  | _ => none

/-! ## `src/protocol.rs` — wire protocol model -/

/-- Correlation tokens (`uuid::Uuid`), modelled as strings in canonical form. -/
abbrev Uuid := String

/-- The `ApiError` (protocol.rs): one entry of a response's `errors` list. -/
structure ApiError where
  detail : String
deriving DecidableEq, Repr

/-- The `Method` (protocol.rs). -/
inductive Method where
  | read
  | write
  | update
  | subscribe
  | create
  | delete
  | select
  | notify
deriving DecidableEq, Repr

/-- The `TargetType` (protocol.rs). -/
inductive TargetType where
  | room
  | device
deriving DecidableEq, Repr

/-- The `RequestMeta` (protocol.rs). -/
structure RequestMeta where
  id : Uuid
  endpoint : String
  method : Method
  target_type : Option TargetType
  target : Option String
deriving DecidableEq, Repr

/-- The `Request` (protocol.rs). -/
structure Request where
  meta : RequestMeta
  data : Option Json
deriving DecidableEq

/-- The `Request::id` (protocol.rs). -/
def Request.id (r : Request) : Uuid := r.meta.id

/-- The `ResponseMeta` (protocol.rs); `response_type` is the JSON field `type`. -/
structure ResponseMeta where
  id : Uuid
  endpoint : Option String
  method : Method
  response_type : Option String
deriving DecidableEq, Repr

/-- The `Response` (protocol.rs). -/
structure Response where
  meta : ResponseMeta
  data : Option Json
  errors : Option (List ApiError)
deriving DecidableEq

/-- The `Response::has_errors` (protocol.rs:126-128):
`self.errors.as_ref().is_some_and(|e| !e.is_empty())`. -/
def Response.has_errors (r : Response) : Bool :=
  match r.errors with
  | some e => !e.isEmpty
  | none => false

/-- The `Response::error_message` (protocol.rs:131-136):
`self.errors.as_ref().and_then(|e| e.first()).map(|e| e.detail.clone())`. -/
def Response.error_message (r : Response) : Option String :=
  (r.errors.bind fun e => e.head?).map fun e => e.detail

/-! ## `src/error.rs` — error taxonomy -/

/-- The `AscendError` (error.rs).  The payloads of the transport-level
variants are reduced to their display strings. -/
inductive AscendError where
  | webSocket (msg : String)
  | connectionClosed
  | timeout
  | apiError (detail : String)
  | json (msg : String)
  | io (msg : String)
  | roomNotFound (id : String)
  | invalidResponse (reason : String)
  | channelError (msg : String)
deriving DecidableEq, Repr

/-- Decidable equality of fallible results, for evaluating the model on
concrete inputs. -/
instance {ε α : Type} [DecidableEq ε] [DecidableEq α] :
    DecidableEq (Except ε α)
  | .ok a, .ok b =>
    if h : a = b then isTrue (by rw [h])
    else isFalse fun hh => h (Except.ok.inj hh)
  | .ok _, .error _ => isFalse fun hh => Except.noConfusion hh
  | .error _, .ok _ => isFalse fun hh => Except.noConfusion hh
  | .error a, .error b =>
    if h : a = b then isTrue (by rw [h])
    else isFalse fun hh => h (Except.error.inj hh)

/-! ## `src/subscription.rs` — notification sum type -/

/-- The `Device` (types.rs). -/
structure Device where
  name : String
  tags : List String
  licenses : List String
deriving DecidableEq

/-- The `StateUpdate` (subscription.rs): the notification sum type.
`roomUpdate` carries the raw JSON payload for one entity. -/
inductive StateUpdate where
  | roomUpdate (payload : Json)
  | deviceUpdate (id : String) (dev : Device)
deriving DecidableEq

/-! ## `src/connection.rs` — connection multiplexer

The pending-request table (`HashMap<Uuid, oneshot::Sender<Response>>`) is
modelled as an association list from correlation token to an abstract
waiter identifier standing for the one-shot sender; a `HashMap` holds at
most one entry per key, which the operations below preserve.  The reader
task processes inbound frames strictly sequentially, so the handlers are
plain state-passing functions on the table. -/

/-- Abstract identifier of a `oneshot::Sender<Response>` completion handle. -/
abbrev WaiterId := Nat

/-- Drop the entries of a key from an association list (the removal half
of a map's `remove`/`insert`). -/
def assocRemove {β : Type} : List (String × β) → String → List (String × β)
  | [], _ => []
  | e :: rest, k =>
    if e.1 = k then assocRemove rest k else e :: assocRemove rest k

/-- The pending-request table. -/
abbrev PendingTable := List (Uuid × WaiterId)

/-- Key lookup (`HashMap::get`-style view used by `remove`). -/
def PendingTable.lookup (t : PendingTable) (id : Uuid) : Option WaiterId :=
  List.lookup id t

/-- Drop every entry of a key (the removal half of `HashMap::remove`). -/
def PendingTable.removeKey (t : PendingTable) (id : Uuid) : PendingTable :=
  assocRemove t id

/-- The `HashMap::insert`: at most one entry per key, later insert replaces. -/
def PendingTable.insert (t : PendingTable) (id : Uuid) (w : WaiterId) :
    PendingTable :=
  (id, w) :: t.removeKey id

/-- The `REQUEST_TIMEOUT` (connection.rs:13), in seconds. -/
def REQUEST_TIMEOUT_SECS : Nat := 10

/-- First state-map entry whose `data` object has `type == "room"`
(the `for` loop of `Connection::parse_state_update`, connection.rs:132-139). -/
def findRoomEntry : List (String × Json) → Option Json
  | [] => none
  | (_, state_entry) :: rest =>
    match state_entry.get "data" with
    | some entry_data =>
      if (entry_data.get "type").bind Json.asStr = some "room" then
        some entry_data
      else findRoomEntry rest
    | none => findRoomEntry rest

namespace Connection

/-- The `Connection::parse_state_update` (connection.rs:120-146). -/
def parse_state_update (response : Response) : Option StateUpdate :=
  if response.meta.method = Method.notify ∧
     response.meta.response_type = some "network" then
    match response.data with
    | some data =>
      match data.get "state" with
      | some state =>
        match state.asObj with
        | some state_obj =>
          (findRoomEntry state_obj).map fun entry_data =>
            StateUpdate.roomUpdate entry_data
        | none => none
      | none => none
    | none => none
  else none

/-- The effect of an inbound frame on the connection. -/
inductive HandleAction where
  /-- The frame resolved the pending request held by this waiter. -/
  | deliver (w : WaiterId) (resp : Response)
  /-- The frame was published to subscribers as a notification. -/
  | publish (u : StateUpdate)
  /-- The frame was dropped silently. -/
  | drop
deriving DecidableEq

/-- The `Connection::handle_message` (connection.rs:94-117), after the serde
decode of the text frame into a `Response`.  Returns the new pending
table and what happened to the frame. -/
def handle_message (pending : PendingTable) (response : Response) :
    PendingTable × HandleAction :=
  match pending.lookup response.meta.id with
  | some w =>
    (pending.removeKey response.meta.id, HandleAction.deliver w response)
  | none =>
    (pending,
      match parse_state_update response with
      | some u => HandleAction.publish u
      | none => HandleAction.drop)

/-- How the `timeout(REQUEST_TIMEOUT, rx)` wait of `send_request` ends. -/
inductive WaitOutcome where
  /-- The one-shot handle was resolved with a response within the
  10-second timeout: `Ok(Ok(response))`. -/
  | resolved (resp : Response)
  /-- The one-shot sender was dropped because the connection closed:
  `Ok(Err(_))`. -/
  | closed
  /-- Ten seconds elapsed without resolution: `Err(_)` from `timeout`. -/
  | timedOut
deriving DecidableEq

/-- The wait half of `Connection::send_request` (connection.rs:168-187):
given the pending table at the end of the wait and how the wait ended,
the resulting table and the value returned to the caller. -/
def send_request_wait (pending : PendingTable) (request_id : Uuid)
    (outcome : WaitOutcome) : PendingTable × Except AscendError Response :=
  match outcome with
  | .resolved response =>
    (pending,
      if response.has_errors then
        match response.error_message with
        | some detail => .error (.apiError detail)
        | none => .ok response
      else .ok response)
  | .closed => (pending, .error .connectionClosed)
  | .timedOut => (pending.removeKey request_id, .error .timeout)

/-- The `Connection::send_request` (connection.rs:149-188) on an open
connection: register the completion handle under the request's
correlation token (connection.rs:154-166; on an open connection the
enqueue into `ws_tx` succeeds, so the early `ConnectionClosed` return at
connection.rs:165 does not fire), then wait.  `w` is the fresh one-shot
sender, `outcome` how the wait ended. -/
def send_request (pending : PendingTable) (request : Request) (w : WaiterId)
    (outcome : WaitOutcome) : PendingTable × Except AscendError Response :=
  send_request_wait (pending.insert request.id w) request.id outcome

/-- The reader task's exit step (connection.rs:81-84):
`state.pending_requests.clear()` empties the table, dropping every
one-shot sender; by `tokio::sync::oneshot` semantics each waiting
receiver then observes `Err`, i.e. the `closed` wait outcome.  Returns
the cleared table and the wait outcome each pending waiter observes. -/
def reader_exit_cleanup (pending : PendingTable) :
    PendingTable × List (WaiterId × WaitOutcome) :=
  ([], pending.map fun e => (e.2, WaitOutcome.closed))

end Connection

/-! ## `src/types.rs` and `src/room.rs` — typed room state

`BTreeMap` fields are modelled as association lists in iteration order;
`f64` values as rationals. -/

/-- The `RoomId = Uuid` (types.rs). -/
abbrev RoomId := Uuid

/-- The `DeviceId = String` (types.rs). -/
abbrev DeviceId := String

/-- The `GainLimits` (types.rs:66-74), with its serde field defaults
`min = -80.0`, `max = 0.0`, `step = 0.5`. -/
structure GainLimits where
  min : Rat
  max : Rat
  step : Rat
deriving DecidableEq

/-- The `GainData` (types.rs:38-46). -/
structure GainData where
  global : Rat
  limits : GainLimits
deriving DecidableEq

/-- The `MuteData` (types.rs:85-93): a `global` flag plus the flattened map
of per-position booleans. -/
structure MuteData where
  global : Bool
  positions : List (String × Bool)
deriving DecidableEq

/-- The `VoicingProfile` (types.rs:113-122). -/
structure VoicingProfile where
  name : String
  sub : Rat
  bass : Rat
  treble : Rat
  param_eq : List (String × Json)
deriving DecidableEq

/-- The `Preset` (types.rs:138-151). -/
structure Preset where
  name : String
  description : String
  settings : List (String × Json)
  readonly : Bool
deriving DecidableEq

/-- The `ChannelGains` (types.rs:162-166). -/
structure ChannelGains where
  left : Rat
  right : Rat
deriving DecidableEq

/-- The `ChannelMapping` (types.rs:154-159): flattened map of channel gains. -/
structure ChannelMapping where
  channels : List (String × ChannelGains)
deriving DecidableEq

/-- Hexadecimal digit test for the uuid format check. -/
def isHexDigit (c : Char) : Bool :=
  c.isDigit || ('a' ≤ c && c ≤ 'f') || ('A' ≤ c && c ≤ 'F')

/-- Canonical hyphenated uuid shape: 36 characters, hyphens at
positions 8, 13, 18 and 23, hex digits elsewhere. -/
def uuid_format_ok (cs : List Char) : Bool :=
  cs.length = 36 &&
    (List.range 36).all fun i =>
      if i = 8 ∨ i = 13 ∨ i = 18 ∨ i = 23 then cs.getD i ' ' = '-'
      else isHexDigit (cs.getD i ' ')

/-- ASCII lower-casing of one character. -/
def char_lower (c : Char) : Char :=
  if 'A' ≤ c ∧ c ≤ 'Z' then Char.ofNat (c.toNat + 32) else c

/-- ASCII lower-casing of a string. -/
def string_lower (s : String) : String := ⟨s.data.map char_lower⟩

/-- The `uuid::Uuid::parse_str`, modelled on the canonical hyphenated
format; accepted ids are normalised to lower case, mirroring `Uuid`
value equality being case-insensitive on the hex digits. -/
def uuid_parse (s : String) : Option Uuid :=
  if uuid_format_ok s.data then some (string_lower s) else none

/-- serde decode of a JSON number into `f64` (any JSON number accepted). -/
def decodeRat : Json → Option Rat
  | .num q => some q
  | _ => none

/-- A numeric field with a serde per-field default when absent. -/
def fieldRatD (j : Json) (key : String) (dflt : Rat) : Option Rat :=
  match j.get key with
  | none => some dflt
  | some v => decodeRat v

/-- The `GainLimits::default()` from the std `#[derive(Default)]`
(types.rs:66): every `f64` field is zero.  This — not the serde
per-field defaults — is what `#[serde(default)]` on `GainData::limits`
produces when the `limits` key is absent. -/
def GAIN_LIMITS_STD_DEFAULT : GainLimits := ⟨0, 0, 0⟩

/-- serde decode of `GainLimits`, with its per-field serde defaults
`min = -80.0`, `max = 0.0`, `step = 0.5` (types.rs:68-74), applied when
the `limits` object is present but a field is missing. -/
def decodeGainLimits (j : Json) : Option GainLimits :=
  match j.asObj with
  | some _ => do
    let mn ← fieldRatD j "min" (-80)
    let mx ← fieldRatD j "max" 0
    let st ← fieldRatD j "step" (mkRat 1 2)
    some ⟨mn, mx, st⟩
  | none => none

/-- serde decode of `GainData`; `limits` carries `#[serde(default)]`,
falling back to `GainLimits::default()` when the key is absent. -/
def decodeGainData (j : Json) : Option GainData :=
  match j.asObj with
  | some _ => do
    let g ← (j.get "global").bind decodeRat
    let lim ←
      match j.get "limits" with
      | none => some GAIN_LIMITS_STD_DEFAULT
      | some v => decodeGainLimits v
    some ⟨g, lim⟩
  | none => none

/-- serde decode of `MuteData`: `global` must be a boolean and, by
`#[serde(flatten)]` into `BTreeMap<String, bool>`, every remaining
field must be a boolean too. -/
def decodeMuteData (j : Json) : Option MuteData := do
  let fields ← j.asObj
  let g ← (j.get "global").bind Json.asBool
  let rest := fields.filter fun e => e.1 ≠ "global"
  let pos ← rest.mapM fun e => (Json.asBool e.2).map fun b => (e.1, b)
  some ⟨g, pos⟩

/-- serde decode of `BTreeMap<String, String>` (the `members` field). -/
def decodeStringMap (j : Json) : Option (List (String × String)) := do
  let fields ← j.asObj
  fields.mapM fun e => (Json.asStr e.2).map fun s => (e.1, s)

/-- serde decode of `Vec<String>` (the `inputModes` field). -/
def decodeStringList (j : Json) : Option (List String) := do
  let elems ← j.asArr
  elems.mapM Json.asStr

/-- serde decode of `VoicingProfile`. -/
def decodeVoicingProfile (j : Json) : Option VoicingProfile := do
  let _ ← j.asObj
  let n ← (j.get "name").bind Json.asStr
  let s ← (j.get "sub").bind decodeRat
  let b ← (j.get "bass").bind decodeRat
  let t ← (j.get "treble").bind decodeRat
  let pe ←
    match j.get "paramEQ" with
    | none => some []
    | some v => v.asObj
  some ⟨n, s, b, t, pe⟩

/-- serde decode of `BTreeMap<String, VoicingProfile>`. -/
def decodeVoicingMap (j : Json) : Option (List (String × VoicingProfile)) := do
  let fields ← j.asObj
  fields.mapM fun e => (decodeVoicingProfile e.2).map fun v => (e.1, v)

/-- serde decode of `Preset`. -/
def decodePreset (j : Json) : Option Preset := do
  let _ ← j.asObj
  let n ← (j.get "name").bind Json.asStr
  let d ←
    match j.get "description" with
    | none => some ""
    | some v => v.asStr
  let s ←
    match j.get "settings" with
    | none => some ([] : List (String × Json))
    | some v => v.asObj
  let ro ←
    match j.get "readonly" with
    | none => some false
    | some v => v.asBool
  some ⟨n, d, s, ro⟩

/-- serde decode of `BTreeMap<String, Preset>`. -/
def decodePresetMap (j : Json) : Option (List (String × Preset)) := do
  let fields ← j.asObj
  fields.mapM fun e => (decodePreset e.2).map fun p => (e.1, p)

/-- serde decode of `ChannelGains`. -/
def decodeChannelGains (j : Json) : Option ChannelGains := do
  let _ ← j.asObj
  let l ← (j.get "left").bind decodeRat
  let r ← (j.get "right").bind decodeRat
  some ⟨l, r⟩

/-- serde decode of `ChannelMapping` (flattened map). -/
def decodeChannelMapping (j : Json) : Option ChannelMapping := do
  let fields ← j.asObj
  let cs ← fields.mapM fun e => (decodeChannelGains e.2).map fun g => (e.1, g)
  some ⟨cs⟩

/-- The `RoomState` (room.rs:21-76). -/
structure RoomState where
  id : RoomId
  name : String
  members : List (DeviceId × String)
  gain : GainData
  mute : MuteData
  sleep : Bool
  selected_input : Option String
  selected_xlr : Option String
  input_modes_raw : List String
  input_modes : List String
  xlr_input_modes : List String
  selected_voicing_profile : Option String
  voicing : List (String × VoicingProfile)
  presets : List (String × Preset)
  last_selected_preset : Option String
  channel_mapping : Option ChannelMapping
  streaming : Option Bool
  linear_phase : Bool
  raw_json : Json
deriving DecidableEq

/-- The API-bug workaround block at the top of
`parse_room_state_from_json` (room.rs:444-459): in the (mutable) payload,
every `"AES Streamer"` string inside the `inputModes` array is replaced
by `"XLR"`, and a `selectedInput` equal to `"AES Streamer"` is replaced
by `"XLR"`. -/
def remap_aes_streamer (json : Json) : Json :=
  match json with
  | .obj fields0 =>
    let fields1 := fields0.map fun e =>
      if e.1 = "inputModes" then
        match e.2 with
        | .arr modes =>
          (e.1, Json.arr (modes.map fun m =>
            if m = Json.str "AES Streamer" then Json.str "XLR" else m))
        | other => (e.1, other)
      else e
    let fields2 := fields1.map fun e =>
      if e.1 = "selectedInput" ∧ e.2 = Json.str "AES Streamer" then
        (e.1, Json.str "XLR")
      else e
    Json.obj fields2
  | other => other

/-- The XLR mode names (room.rs:500). -/
def xlr_mode_names : List String := ["aes", "analogLowGain", "analogHighGain"]

/-- The `parse_room_state_from_json` (room.rs:443-559). -/
def parse_room_state_from_json (json0 : Json) : Except AscendError RoomState :=
  let json := remap_aes_streamer json0
  match ((json.get "id").bind Json.asStr).bind uuid_parse with
  | none => .error (.invalidResponse "Missing or invalid room id")
  | some id =>
  match (json.get "name").bind Json.asStr with
  | none => .error (.invalidResponse "Missing room name")
  | some name =>
  let members := ((json.get "members").bind decodeStringMap).getD []
  match json.get "gain" with
  | none => .error (.invalidResponse "Missing gain data")
  | some gainJson =>
  match decodeGainData gainJson with
  | none => .error (.json "invalid gain data")
  | some gain =>
  match json.get "mute" with
  | none => .error (.invalidResponse "Missing mute data")
  | some muteJson =>
  match decodeMuteData muteJson with
  | none => .error (.json "invalid mute data")
  | some mute =>
  let sleep := ((json.get "sleep").bind Json.asBool).getD false
  let selected_input := (json.get "selectedInput").bind Json.asStr
  let selected_xlr := (json.get "selectedXLR").bind Json.asStr
  let input_modes_raw := ((json.get "inputModes").bind decodeStringList).getD []
  let input_modes := input_modes_raw.filter fun m => ¬ (m ∈ xlr_mode_names)
  let xlr_input_modes := input_modes_raw.filter fun m => m ∈ xlr_mode_names
  let selected_voicing_profile :=
    (json.get "selectedVoicingProfile").bind Json.asStr
  let voicing := ((json.get "voicing").bind decodeVoicingMap).getD []
  let presets := ((json.get "presets").bind decodePresetMap).getD []
  let last_selected_preset := (json.get "lastSelectedPreset").bind Json.asStr
  let channel_mapping := (json.get "channelMapping").bind decodeChannelMapping
  let streaming := (json.get "streaming").bind Json.asBool
  let linear_phase := ((json.get "linearPhase").bind Json.asBool).getD false
  .ok
    { id, name, members, gain, mute, sleep, selected_input, selected_xlr,
      input_modes_raw, input_modes, xlr_input_modes,
      selected_voicing_profile, voicing, presets, last_selected_preset,
      channel_mapping, streaming, linear_phase, raw_json := json }

/-! ## `src/discovery.rs` — discovery engine -/

/-- The `MAX_BACKOFF` (discovery.rs:15), in seconds. -/
def MAX_BACKOFF : Nat := 60

/-- The `SPEAKER_PORT` (discovery.rs:16). -/
def SPEAKER_PORT : Nat := 8768

/-- The backoff update of the discovery loop body
(discovery.rs:123-137), from the old backoff (seconds) and the result of
`run_discovery_once`. -/
def backoff_step (backoff : Nat) (result : Except AscendError Unit) : Nat :=
  match result with
  | .ok _ => 0
  | .error _ => if backoff = 0 then 1 else min (backoff * 2) MAX_BACKOFF

/-- Backoff after a sequence of cycle results, starting from `backoff`
(the loop folds `backoff_step` over consecutive cycles). -/
def backoff_run (backoff : Nat) (results : List (Except AscendError Unit)) :
    Nat :=
  results.foldl backoff_step backoff

/-- The `parse_speaker_ips` inner collection (discovery.rs:260-272): for
each entry of the `local` object, the string elements of its `localIp4`
array. -/
def speaker_ips_of (localObj : List (String × Json)) : List String :=
  localObj.foldl
    (fun acc e =>
      match (e.2.get "localIp4").bind Json.asArr with
      | some ipArr => acc ++ ipArr.filterMap Json.asStr
      | none => acc)
    []

/-- The `parse_speaker_ips` (discovery.rs:254-279). -/
def parse_speaker_ips (data : Json) : Option (List String) :=
  match (data.get "local").bind Json.asObj with
  | none => none
  | some localObj =>
    let ips := speaker_ips_of localObj
    if ips.isEmpty then none else some ips

/-- One inbound websocket frame of the discovery connection, with the
serde parse result of a text frame (`none` = malformed JSON,
discovery.rs:232-234). -/
inductive WsFrame where
  | text (parsed : Option Response)
  | close
  | other
deriving DecidableEq

/-- The external events one call of `run_discovery_once` can encounter:
how connecting, sending and the single read go, and — when a response
is processed — the result of `process_speaker` for each discovered
address (those failures are logged and do not abort the pass,
discovery.rs:222-226). -/
inductive CycleInput where
  /-- The `connect_async(DISCOVERY_URL)` failed (discovery.rs:177). -/
  | connectErr (e : AscendError)
  /-- The `write.send(..)` of the discovery request failed (discovery.rs:183). -/
  | sendErr (e : AscendError)
  /-- The stop signal won the select (discovery.rs:189-193). -/
  | stopped
  /-- The `read.next()` returned `None` (discovery.rs:197). -/
  | streamEnd
  /-- The `read.next()` returned `Some(Err(e))` (discovery.rs:240-244). -/
  | wsErr (e : AscendError)
  /-- The `read.next()` returned a frame. -/
  | frame (f : WsFrame) (speakerResults : List (Except AscendError Unit))

/-- The `run_discovery_once` (discovery.rs:169-252): the value the discovery
loop body sees for each kind of cycle.  Note which paths return `Ok`:
cancellation, a closed or exhausted stream, a non-text frame, a text
frame that fails to parse (logged, discovery.rs:232-234), a parsed
response carrying an explicit `errors` list (logged, discovery.rs:204-208),
a response without usable speaker IPs, and a processed response
regardless of per-speaker failures.  Only the connect error, the send
error and a websocket read error return `Err`. -/
def run_discovery_once (input : CycleInput) : Except AscendError Unit :=
  match input with
  | .connectErr e => .error e
  | .sendErr e => .error e
  | .stopped => .ok ()
  | .streamEnd => .ok ()
  | .wsErr e => .error e
  | .frame .close _ => .ok ()
  | .frame .other _ => .ok ()
  | .frame (.text none) _ => .ok ()
  | .frame (.text (some response)) _speakerResults =>
    if response.has_errors then .ok ()
    else
      match response.data with
      | none => .ok ()
      | some data =>
        match parse_speaker_ips data with
        | none => .ok ()
        | some _ips => .ok ()

/-- One `SpeakerConnection` (speaker_connection.rs:8-12); `connId`
identifies the underlying `Connection` (socket). -/
structure SpeakerConnectionRef where
  ip : String
  port : Nat
  connId : Nat
deriving DecidableEq

/-- The Device Link registry `BTreeMap<String, Arc<SpeakerConnection>>`
keyed by speaker address. -/
abbrev SpeakerMap := List (String × SpeakerConnectionRef)

/-- The registry together with counters witnessing socket creation:
`nextConn` numbers fresh connections, `connectionsOpened` counts every
socket ever opened. -/
structure LinkRegistryState where
  speakers : SpeakerMap
  nextConn : Nat
  connectionsOpened : Nat
deriving DecidableEq

/-- The reuse-or-create step of `process_speaker` (discovery.rs:289-316):
look the address up in the registry under the lock; reuse the existing
link if present, otherwise open a new connection (when `connectOk`;
a connect failure returns the error and leaves the registry unchanged)
and insert it. -/
def process_speaker_link (st : LinkRegistryState) (speaker_ip : String)
    (connectOk : Bool) :
    LinkRegistryState × Except AscendError SpeakerConnectionRef :=
  match List.lookup speaker_ip st.speakers with
  | some existing => (st, .ok existing)
  | none =>
    if connectOk then
      let conn : SpeakerConnectionRef := ⟨speaker_ip, SPEAKER_PORT, st.nextConn⟩
      ({ speakers := (speaker_ip, conn) :: st.speakers,
         nextConn := st.nextConn + 1,
         connectionsOpened := st.connectionsOpened + 1 },
       .ok conn)
    else (st, .error (.webSocket "connect failed"))

/-- One discovery pass over the reported addresses (the `for speaker_ip`
loop of discovery.rs:222-226 restricted to its registry effect). -/
def run_pass (st : LinkRegistryState) (pass : List (String × Bool)) :
    LinkRegistryState :=
  pass.foldl (fun s p => (process_speaker_link s p.1 p.2).1) st

/-- The entity registry `BTreeMap<RoomId, Room>`. -/
abbrev RoomsMap := List (RoomId × RoomState)

/-- The `BTreeMap::insert`: at most one entry per key, insert replaces. -/
def RoomsMap.insert (m : RoomsMap) (id : RoomId) (r : RoomState) : RoomsMap :=
  (id, r) :: assocRemove m id

/-- The room-add step of `process_speaker` (discovery.rs:333-339):
`for room in parsed_rooms { rooms_lock.insert(room.id(), room); }`. -/
def add_scan_rooms (roomsMap : RoomsMap) (parsed : List RoomState) : RoomsMap :=
  parsed.foldl (fun m room => m.insert room.id room) roomsMap

/-- The `parse_rooms_from_network_data` (discovery.rs:415-464).  The
`speaker` handle a `Room` also carries plays no role in the parsed
state and is omitted. -/
def parse_rooms_from_network_data (data : Json) :
    Except AscendError (List RoomState) :=
  match data.get "state" with
  | none => .error (.invalidResponse "No state in network response")
  | some state =>
    match state.asObj with
    | none => .error (.invalidResponse "State is not an object")
    | some state_obj =>
      .ok (state_obj.foldl
        (fun acc e =>
          match e.2.get "data" with
          | none => acc
          | some data_obj =>
            match (data_obj.get "type").bind Json.asStr with
            | none => acc
            | some type_str =>
              if type_str = "room" then
                match parse_room_state_from_json data_obj with
                | .ok room => acc ++ [room]
                | .error _ => acc
              else acc)
        [])

/-! ## Specification-side predicates (for refinement comparison)

These follow the specification's / claims' words, independently of the
source translation above, so the two can be compared. -/

/-- The `true` on booleans standing for "this `HandleAction` resolved a
pending request". -/
def Connection.HandleAction.isDeliver : Connection.HandleAction → Bool
  | .deliver _ _ => true
  | _ => false

/-- The shape condition of claim C6 as the claim states it: the frame's
`response_type` tag equals `"network"` and its data contains, nested
under the `state` map, an entry whose `data` object has declared type
`"room"`.  (No condition on the method tag.) -/
def claim_room_shape (resp : Response) : Bool :=
  (resp.meta.response_type == some "network") &&
  (match resp.data with
   | some d =>
     match (d.get "state").bind Json.asObj with
     | some entries =>
       entries.any fun e =>
         match e.2.get "data" with
         | some ed => (ed.get "type").bind Json.asStr == some "room"
         | none => false
     | none => false
   | none => false)

/-- The amended publication condition: as `claim_room_shape`, plus the
frame's method tag equal to `notify`. -/
def notification_is_room_update (resp : Response) : Bool :=
  (resp.meta.method == Method.notify) && claim_room_shape resp

/-- The room-typed entries of a state map, in iteration order (the
`data` object of every entry whose `data.type` is `"room"`). -/
def room_entries (entries : List (String × Json)) : List Json :=
  entries.filterMap fun e =>
    match e.2.get "data" with
    | some ed =>
      if (ed.get "type").bind Json.asStr = some "room" then some ed else none
    | none => none

/-! ## Concrete sample data for counterexamples and witnesses -/

/-- A fixed correlation token in canonical uuid form. -/
def tok1 : Uuid := "aaaaaaaa-aaaa-aaaa-aaaa-aaaaaaaaaaaa"

/-- A plain `network` Read request carrying `tok1`. -/
def sampleRequest : Request := ⟨⟨tok1, "network", .read, none, none⟩, none⟩

/-- A reply-shaped frame carrying `tok1` and nothing else. -/
def plainResponse : Response := ⟨⟨tok1, none, .read, none⟩, none, none⟩

/-- A discovery reply carrying an explicit (non-empty) `errors` list. -/
def errorListResponse : Response :=
  ⟨⟨"dddddddd-dddd-dddd-dddd-dddddddddddd", none, .read, none⟩,
   none, some [⟨"boom"⟩]⟩

/-- A minimal state-map entry payload of declared type `room`. -/
def bareRoomEntry : Json := .obj [("type", .str "room")]

/-- Notification-shaped data: a `state` map with one room-typed entry. -/
def networkRoomData : Json :=
  .obj [("state", .obj [("e1", .obj [("data", bareRoomEntry)])])]

/-- A frame with `response_type == "network"` and room-typed state data,
but method tag `read` instead of `notify`. -/
def readNetworkRoomResponse : Response :=
  ⟨⟨"eeeeeeee-eeee-eeee-eeee-eeeeeeeeeeee", none, .read, some "network"⟩,
   some networkRoomData, none⟩

/-- A room id used by the sample payloads. -/
def uuidR1 : String := "11111111-1111-1111-1111-111111111111"

/-- A second room id used by the sample payloads. -/
def uuidR2 : String := "22222222-2222-2222-2222-222222222222"

/-- A minimal valid room payload with id `uuidR1` and name `Old`. -/
def oldRoomPayload : Json := .obj
  [("id", .str uuidR1),
   ("name", .str "Old"),
   ("gain", .obj [("global", .num 0)]),
   ("mute", .obj [("global", .bool false)])]

/-- The same room id `uuidR1` as re-reported by a later scan, name `New`. -/
def newRoomPayload : Json := .obj
  [("id", .str uuidR1),
   ("name", .str "New"),
   ("gain", .obj [("global", .num (-10))]),
   ("mute", .obj [("global", .bool true)])]

/-- The parsed form of `oldRoomPayload`. -/
def oldRoom : RoomState :=
  { id := uuidR1, name := "Old", members := [],
    gain := ⟨0, ⟨0, 0, 0⟩⟩, mute := ⟨false, []⟩, sleep := false,
    selected_input := none, selected_xlr := none,
    input_modes_raw := [], input_modes := [], xlr_input_modes := [],
    selected_voicing_profile := none, voicing := [], presets := [],
    last_selected_preset := none, channel_mapping := none,
    streaming := none, linear_phase := false, raw_json := oldRoomPayload }

/-- The parsed form of `newRoomPayload`. -/
def newRoom : RoomState :=
  { id := uuidR1, name := "New", members := [],
    gain := ⟨-10, ⟨0, 0, 0⟩⟩, mute := ⟨true, []⟩, sleep := false,
    selected_input := none, selected_xlr := none,
    input_modes_raw := [], input_modes := [], xlr_input_modes := [],
    selected_voicing_profile := none, voicing := [], presets := [],
    last_selected_preset := none, channel_mapping := none,
    streaming := none, linear_phase := false, raw_json := newRoomPayload }

/-- A valid room payload whose `inputModes` and `selectedInput` carry the
quirky `"AES Streamer"` label. -/
def aesRoomPayload : Json := .obj
  [("id", .str uuidR1),
   ("name", .str "Old"),
   ("gain", .obj [("global", .num 0)]),
   ("mute", .obj [("global", .bool false)]),
   ("inputModes", .arr [.str "AES Streamer", .str "Roon Ready"]),
   ("selectedInput", .str "AES Streamer")]

/-- A room-typed state entry payload for room `uuidR1`, name `R1`. -/
def roomEntryOne : Json := .obj
  [("type", .str "room"),
   ("id", .str uuidR1),
   ("name", .str "R1"),
   ("gain", .obj [("global", .num 0)]),
   ("mute", .obj [("global", .bool false)])]

/-- A room-typed state entry payload for room `uuidR2`, name `R2`. -/
def roomEntryTwo : Json := .obj
  [("type", .str "room"),
   ("id", .str uuidR2),
   ("name", .str "R2"),
   ("gain", .obj [("global", .num 0)]),
   ("mute", .obj [("global", .bool false)])]

/-- Network data whose state map holds two room-typed entries. -/
def twoRoomsData : Json :=
  .obj [("state", .obj
    [("a", .obj [("data", roomEntryOne)]),
     ("b", .obj [("data", roomEntryTwo)])])]

/-- A notification frame (method `notify`, type `network`) carrying the
two-room state map, with an id matching no pending request. -/
def twoRoomsNotification : Response :=
  ⟨⟨"ffffffff-ffff-ffff-ffff-ffffffffffff", none, .notify, some "network"⟩,
   some twoRoomsData, none⟩

/-! ## Helper lemmas on association-list maps -/

theorem lookup_cons_ne {β : Type} (a : String) (b : β)
    (l : List (String × β)) (id : String) (h : id ≠ a) :
    List.lookup id ((a, b) :: l) = List.lookup id l := by
  have hb : (id == a) = false := beq_eq_false_iff_ne.mpr h
  simp [List.lookup, hb]

theorem lookup_cons_self {β : Type} (a : String) (b : β)
    (l : List (String × β)) :
    List.lookup a ((a, b) :: l) = some b := by
  simp [List.lookup]

theorem lookup_assocRemove_self {β : Type} (l : List (String × β))
    (k : String) :
    List.lookup k (assocRemove l k) = none := by
  induction l with
  | nil => rfl
  | cons e rest ih =>
    rcases e with ⟨a, b⟩
    by_cases h : a = k
    · simpa [assocRemove, h] using ih
    · rw [show assocRemove ((a, b) :: rest) k =
          (a, b) :: assocRemove rest k by simp [assocRemove, h]]
      rw [lookup_cons_ne a b _ k fun hh => h hh.symm]
      exact ih

theorem lookup_assocRemove_ne {β : Type} (l : List (String × β))
    (k id : String) (h : id ≠ k) :
    List.lookup id (assocRemove l k) = List.lookup id l := by
  induction l with
  | nil => rfl
  | cons e rest ih =>
    rcases e with ⟨a, b⟩
    by_cases he : a = k
    · have hid : id ≠ a := fun hh => h (hh.trans he)
      rw [show assocRemove ((a, b) :: rest) k = assocRemove rest k by
        simp [assocRemove, he]]
      rw [lookup_cons_ne a b rest id hid]
      exact ih
    · rw [show assocRemove ((a, b) :: rest) k =
          (a, b) :: assocRemove rest k by simp [assocRemove, he]]
      by_cases hid : id = a
      · subst hid
        rw [lookup_cons_self, lookup_cons_self]
      · rw [lookup_cons_ne a b _ id hid, lookup_cons_ne a b rest id hid]
        exact ih

theorem assocRemove_idem {β : Type} (l : List (String × β)) (k : String) :
    assocRemove (assocRemove l k) k = assocRemove l k := by
  induction l with
  | nil => rfl
  | cons e rest ih =>
    rcases e with ⟨a, b⟩
    by_cases h : a = k
    · simpa [assocRemove, h] using ih
    · rw [show assocRemove ((a, b) :: rest) k =
          (a, b) :: assocRemove rest k by simp [assocRemove, h]]
      rw [show assocRemove ((a, b) :: assocRemove rest k) k =
          (a, b) :: assocRemove (assocRemove rest k) k by
        simp [assocRemove, h]]
      rw [ih]

theorem lookup_none_not_memKeys {β : Type} (l : List (String × β))
    (k : String) (h : List.lookup k l = none) :
    k ∉ l.map Prod.fst := by
  induction l with
  | nil => simp
  | cons e rest ih =>
    rcases e with ⟨a, b⟩
    by_cases hk : k = a
    · subst hk
      rw [lookup_cons_self] at h
      cases h
    · rw [lookup_cons_ne a b rest k hk] at h
      simp [hk, ih h]

theorem PendingTable.lookup_removeKey_self (t : PendingTable) (id : Uuid) :
    PendingTable.lookup (t.removeKey id) id = none :=
  lookup_assocRemove_self t id

theorem PendingTable.removeKey_insert_self (t : PendingTable) (id : Uuid)
    (w : WaiterId) :
    (t.insert id w).removeKey id = t.removeKey id := by
  show assocRemove ((id, w) :: assocRemove t id) id = assocRemove t id
  rw [show assocRemove ((id, w) :: assocRemove t id) id =
      assocRemove (assocRemove t id) id by simp [assocRemove]]
  exact assocRemove_idem t id

/-! ## Claim theorems -/

/-- C1. For every `Connection::send_request` on an open connection,
exactly one of three mutually exclusive outcomes fires, and the value
returned to the caller is fully determined by it: a response resolved
within the 10-second timeout is returned, unless it carries a non-empty
`errors` list, in which case the call fails with `ApiError` on the first
error's detail message; a timeout removes the caller's own pending-table
entry and fails with `Timeout`; a wait interrupted by connection closure
fails with `ConnectionClosed`. -/
theorem send_request_three_outcomes (pending : PendingTable)
    (request : Request) (w : WaiterId) (outcome : Connection.WaitOutcome) :
    (∀ resp, (Connection.send_request pending request w outcome).2 =
        .ok resp ↔
      outcome = .resolved resp ∧ resp.has_errors = false) ∧
    (∀ d, (Connection.send_request pending request w outcome).2 =
        .error (.apiError d) ↔
      ∃ resp rest, outcome = .resolved resp ∧
        resp.errors = some (⟨d⟩ :: rest)) ∧
    ((Connection.send_request pending request w outcome).2 =
        .error .timeout ↔ outcome = .timedOut) ∧
    (outcome = .timedOut →
      (Connection.send_request pending request w outcome).1 =
        pending.removeKey request.id) ∧
    ((Connection.send_request pending request w outcome).2 =
        .error .connectionClosed ↔ outcome = .closed) := by
  cases outcome with
  | resolved resp0 =>
    rcases hr : resp0.errors with _ | l
    · refine ⟨?_, ?_, by simp [Connection.send_request,
        Connection.send_request_wait, Response.has_errors, hr],
        by simp, by simp [Connection.send_request,
        Connection.send_request_wait, Response.has_errors, hr]⟩
      · intro resp
        constructor
        · intro h
          simp [Connection.send_request, Connection.send_request_wait,
            Response.has_errors, hr] at h
          subst h
          exact ⟨rfl, by simp [Response.has_errors, hr]⟩
        · rintro ⟨h, -⟩
          cases h
          simp [Connection.send_request, Connection.send_request_wait,
            Response.has_errors, hr]
      · intro d
        constructor
        · intro h
          simp [Connection.send_request, Connection.send_request_wait,
            Response.has_errors, hr] at h
        · rintro ⟨resp, rest, h, hres⟩
          cases h
          rw [hr] at hres
          cases hres
    · cases l with
      | nil =>
        refine ⟨?_, ?_, by simp [Connection.send_request,
          Connection.send_request_wait, Response.has_errors, hr],
          by simp, by simp [Connection.send_request,
          Connection.send_request_wait, Response.has_errors, hr]⟩
        · intro resp
          constructor
          · intro h
            simp [Connection.send_request, Connection.send_request_wait,
              Response.has_errors, hr] at h
            subst h
            exact ⟨rfl, by simp [Response.has_errors, hr]⟩
          · rintro ⟨h, -⟩
            cases h
            simp [Connection.send_request, Connection.send_request_wait,
              Response.has_errors, hr]
        · intro d
          constructor
          · intro h
            simp [Connection.send_request, Connection.send_request_wait,
              Response.has_errors, hr] at h
          · rintro ⟨resp, rest, h, hres⟩
            cases h
            rw [hr] at hres
            simp at hres
      | cons e rest0 =>
        have hres : (Connection.send_request pending request w
            (.resolved resp0)).2 = .error (.apiError e.detail) := by
          simp [Connection.send_request, Connection.send_request_wait,
            Response.has_errors, Response.error_message, hr]
        refine ⟨?_, ?_, by simp [hres], by simp, by simp [hres]⟩
        · intro resp
          simp only [hres]
          constructor
          · intro h
            cases h
          · rintro ⟨h, hne⟩
            cases h
            simp [Response.has_errors, hr] at hne
        · intro d
          simp only [hres]
          constructor
          · intro h
            refine ⟨resp0, rest0, rfl, ?_⟩
            have : d = e.detail := by
              have := (Except.error.inj h)
              cases this
              rfl
            rw [hr, this]
          · rintro ⟨resp, rest, h, hres2⟩
            cases h
            rw [hr] at hres2
            obtain ⟨h1, -⟩ := List.cons.inj (Option.some.inj hres2)
            cases h1
            rfl
  | closed =>
    refine ⟨by simp [Connection.send_request, Connection.send_request_wait],
      by simp [Connection.send_request, Connection.send_request_wait],
      by simp [Connection.send_request, Connection.send_request_wait],
      by simp,
      by simp [Connection.send_request, Connection.send_request_wait]⟩
  | timedOut =>
    refine ⟨by simp [Connection.send_request, Connection.send_request_wait],
      by simp [Connection.send_request, Connection.send_request_wait],
      by simp [Connection.send_request, Connection.send_request_wait],
      ?_,
      by simp [Connection.send_request, Connection.send_request_wait]⟩
    intro
    show ((pending.insert request.id w).removeKey request.id) = _
    exact PendingTable.removeKey_insert_self pending request.id w

/-- Witness for C1: with one pending entry under the request's token,
the timed-out wait fails with `Timeout` and leaves the table empty. -/
theorem send_request_three_outcomes_witness :
    (Connection.send_request [(tok1, 0)] sampleRequest 0
        Connection.WaitOutcome.timedOut).2 =
      .error .timeout ∧
    (Connection.send_request [(tok1, 0)] sampleRequest 0
        Connection.WaitOutcome.timedOut).1 = [] := by
  have h := send_request_three_outcomes [(tok1, 0)] sampleRequest 0
    Connection.WaitOutcome.timedOut
  exact ⟨h.2.2.1.mpr rfl, (h.2.2.2.1 rfl).trans (by decide)⟩

/-- C2. At-most-once delivery per correlation token: a frame whose
id matches a pending entry removes that entry and delivers to exactly
that waiter; afterwards the token is absent from the table, so a second
inbound frame with the same id never resolves any caller. -/
theorem handle_message_at_most_once (pending : PendingTable)
    (resp resp2 : Response) (hid : resp2.meta.id = resp.meta.id) :
    PendingTable.lookup (Connection.handle_message pending resp).1
      resp.meta.id = none ∧
    (∀ w r, (Connection.handle_message pending resp).2 =
        Connection.HandleAction.deliver w r →
      PendingTable.lookup pending resp.meta.id = some w ∧ r = resp ∧
      (Connection.handle_message pending resp).1 =
        pending.removeKey resp.meta.id) ∧
    ((Connection.handle_message
        (Connection.handle_message pending resp).1 resp2).2).isDeliver
      = false := by
  rcases h : PendingTable.lookup pending resp.meta.id with _ | w0
  · have htbl : (Connection.handle_message pending resp).1 = pending := by
      simp [Connection.handle_message, h]
    refine ⟨by rw [htbl]; exact h, ?_, ?_⟩
    · intro w r hact
      exfalso
      rcases hp : Connection.parse_state_update resp with _ | u <;>
        simp [Connection.handle_message, h, hp] at hact
    · rw [htbl]
      have h2 : PendingTable.lookup pending resp2.meta.id = none := by
        rw [hid]; exact h
      rcases hp : Connection.parse_state_update resp2 with _ | u <;>
        simp [Connection.handle_message, h2, hp,
          Connection.HandleAction.isDeliver]
  · have htbl : (Connection.handle_message pending resp).1 =
        pending.removeKey resp.meta.id := by
      simp [Connection.handle_message, h]
    have hgone : PendingTable.lookup (pending.removeKey resp.meta.id)
        resp.meta.id = none :=
      PendingTable.lookup_removeKey_self pending resp.meta.id
    refine ⟨by rw [htbl]; exact hgone, ?_, ?_⟩
    · intro w r hact
      simp [Connection.handle_message, h] at hact
      obtain ⟨hw, hr2⟩ := hact
      subst hw
      exact ⟨rfl, hr2.symm, htbl⟩
    · rw [htbl]
      have h2 : PendingTable.lookup (pending.removeKey resp.meta.id)
          resp2.meta.id = none := by
        rw [hid]; exact hgone
      rcases hp : Connection.parse_state_update resp2 with _ | u <;>
        simp [Connection.handle_message, h2, hp,
          Connection.HandleAction.isDeliver]

/-- Witness for C2: a retransmitted reply for `tok1` resolves nobody. -/
theorem handle_message_at_most_once_witness :
    PendingTable.lookup
      (Connection.handle_message [(tok1, 7)] plainResponse).1 tok1 = none ∧
    ((Connection.handle_message
        (Connection.handle_message [(tok1, 7)] plainResponse).1
        plainResponse).2).isDeliver = false := by
  have h := handle_message_at_most_once [(tok1, 7)] plainResponse
    plainResponse rfl
  exact ⟨h.1, h.2.2⟩

/-- C3. When the reader loop exits, the pending table is cleared,
no cleared entry is resolved successfully — each pending waiter observes
the `closed` wait outcome — and a `send_request` caller seeing that
outcome fails with `ConnectionClosed` instead of waiting forever. -/
theorem reader_exit_clears_pending (pending : PendingTable) :
    (Connection.reader_exit_cleanup pending).1 = [] ∧
    (∀ e, e ∈ pending →
      (e.2, Connection.WaitOutcome.closed) ∈
        (Connection.reader_exit_cleanup pending).2) ∧
    (∀ w oc, (w, oc) ∈ (Connection.reader_exit_cleanup pending).2 →
      oc = Connection.WaitOutcome.closed ∧
      ∀ p rid, (Connection.send_request_wait p rid oc).2 =
        .error .connectionClosed) := by
  refine ⟨rfl, ?_, ?_⟩
  · intro e he
    exact List.mem_map_of_mem _ he
  · intro w oc hm
    simp only [Connection.reader_exit_cleanup, List.mem_map] at hm
    obtain ⟨e, -, heq⟩ := hm
    obtain ⟨-, h2⟩ := Prod.mk.inj heq
    refine ⟨h2.symm, ?_⟩
    intro p rid
    rw [← h2]
    rfl

/-- Witness for C3: a table with one pending waiter is cleared and that
waiter's wait fails with `ConnectionClosed`. -/
theorem reader_exit_clears_pending_witness :
    (Connection.reader_exit_cleanup [(tok1, 5)]).1 = [] ∧
    (Connection.send_request_wait [] tok1
        Connection.WaitOutcome.closed).2 = .error .connectionClosed := by
  have h := reader_exit_clears_pending [(tok1, 5)]
  exact ⟨h.1, ((h.2.2 5 Connection.WaitOutcome.closed
    (by decide)).2 [] tok1)⟩

/-- C5. A timed-out `send_request` fails with `Timeout` and removes
its own pending entry — entries of every other correlation token are
untouched — so a late frame carrying the same correlation token never
resolves any caller and is handled only as a potential orphan
notification (published if it decodes, silently dropped otherwise, the
table unchanged). -/
theorem timeout_removes_entry_no_late_resolve (pending : PendingTable)
    (request : Request) (w : WaiterId) (resp : Response)
    (hid : resp.meta.id = request.id) :
    (Connection.send_request pending request w
        Connection.WaitOutcome.timedOut).2 = .error .timeout ∧
    PendingTable.lookup
      (Connection.send_request pending request w
        Connection.WaitOutcome.timedOut).1 request.id = none ∧
    (∀ tok, tok ≠ request.id →
      PendingTable.lookup
        (Connection.send_request pending request w
          Connection.WaitOutcome.timedOut).1 tok =
      PendingTable.lookup pending tok) ∧
    Connection.handle_message
        (Connection.send_request pending request w
          Connection.WaitOutcome.timedOut).1 resp =
      ((Connection.send_request pending request w
          Connection.WaitOutcome.timedOut).1,
        match Connection.parse_state_update resp with
        | some u => Connection.HandleAction.publish u
        | none => Connection.HandleAction.drop) := by
  have htbl : (Connection.send_request pending request w
      Connection.WaitOutcome.timedOut).1 =
      (pending.insert request.id w).removeKey request.id := rfl
  have hgone : PendingTable.lookup
      ((pending.insert request.id w).removeKey request.id)
      request.id = none :=
    PendingTable.lookup_removeKey_self (pending.insert request.id w)
      request.id
  refine ⟨rfl, htbl ▸ hgone, ?_, ?_⟩
  · intro tok htok
    rw [htbl]
    show List.lookup tok (assocRemove ((request.id, w) ::
      assocRemove pending request.id) request.id) = _
    rw [lookup_assocRemove_ne _ request.id tok htok,
      lookup_cons_ne request.id w _ tok htok,
      lookup_assocRemove_ne pending request.id tok htok]
    rfl
  · have h2 : PendingTable.lookup
        ((pending.insert request.id w).removeKey request.id)
        resp.meta.id = none := by
      rw [hid]; exact hgone
    rw [htbl]
    simp [Connection.handle_message, h2]

/-- Witness for C5: concrete timed-out request whose late reply is
silently dropped. -/
theorem timeout_removes_entry_no_late_resolve_witness :
    (Connection.send_request [] sampleRequest 0
        Connection.WaitOutcome.timedOut).2 = .error .timeout ∧
    (Connection.handle_message
        (Connection.send_request [] sampleRequest 0
          Connection.WaitOutcome.timedOut).1 plainResponse).2 =
      Connection.HandleAction.drop := by
  have h := timeout_removes_entry_no_late_resolve [] sampleRequest 0
    plainResponse rfl
  refine ⟨h.1, ?_⟩
  have := congrArg Prod.snd h.2.2.2
  exact this.trans (by decide)

/-- C4, counterexample. A discovery cycle whose response carries an
explicit non-empty `errors` list makes `run_discovery_once` return `Ok`
(discovery.rs:204-208), so the loop body resets the backoff to 0 instead
of increasing it to 1 second as the claim states. -/
theorem backoff_error_list_resets_cex :
    errorListResponse.has_errors = true ∧
    run_discovery_once (.frame (.text (some errorListResponse)) []) =
      .ok () ∧
    backoff_step 0
      (run_discovery_once (.frame (.text (some errorListResponse)) [])) =
      0 := by
  refine ⟨by decide, by decide, by decide⟩

/-- Closed form of the backoff after a run of consecutive failing
cycles: `min (2^n) 60` after `n + 1` failures from a fresh start. -/
theorem backoff_run_failures (es : List AscendError) (e : AscendError) :
    backoff_run 0 ((es ++ [e]).map Except.error) =
      min (2 ^ es.length) MAX_BACKOFF := by
  induction es using List.reverseRecOn generalizing e with
  | nil => simp [backoff_run, backoff_step, MAX_BACKOFF]
  | append_singleton es0 e0 ih =>
    have hstep : backoff_run 0 (((es0 ++ [e0]) ++ [e]).map Except.error) =
        backoff_step (backoff_run 0 ((es0 ++ [e0]).map Except.error))
          (Except.error e) := by
      simp [backoff_run, List.foldl_append]
    rw [hstep, ih e0]
    have hpow : (1 : Nat) ≤ 2 ^ es0.length := Nat.one_le_two_pow
    have hmul : 2 ^ (es0 ++ [e0]).length = 2 ^ es0.length * 2 := by
      rw [← Nat.pow_succ]
      congr 1
      simp
    rw [hmul]
    simp only [backoff_step, MAX_BACKOFF]
    have hne0 : ¬ (2 ^ es0.length ⊓ 60 = 0) := by
      have h60 : (1 : Nat) ≤ 60 := by omega
      have := le_min hpow h60
      omega
    rw [if_neg hne0]
    omega

/-- C4, amended. The backoff starts at 0 and, across consecutive
cycles in which `run_discovery_once` returns `Err` (discovery
unreachable, send failure, or a websocket read error), follows exactly
0, 1, 2, 4, 8, 16, 32, 60, 60, … — `min (2^(n-1)) 60` after `n ≥ 1`
failures — and resets to 0 after any cycle returning `Ok`.  Cycles whose
response is malformed or carries an explicit error list return `Ok`
(they are logged, not failed), so they also reset the backoff. -/
theorem backoff_policy_amended (es : List AscendError) (r : Response)
    (srs : List (Except AscendError Unit)) (b : Nat)
    (hne : es ≠ []) (herr : r.has_errors = true) :
    backoff_run 0 [] = 0 ∧
    backoff_run 0 (es.map Except.error) =
      min (2 ^ (es.length - 1)) MAX_BACKOFF ∧
    backoff_step b (.ok ()) = 0 ∧
    run_discovery_once (.frame (.text (some r)) srs) = .ok () ∧
    run_discovery_once (.frame (.text none) srs) = .ok () := by
  refine ⟨rfl, ?_, rfl, ?_, rfl⟩
  · rcases List.eq_nil_or_concat es with h | ⟨es0, e, h⟩
    · exact absurd h hne
    · subst h
      rw [List.concat_eq_append, backoff_run_failures es0 e]
      congr 1
      simp
  · simp [run_discovery_once, herr]

/-- Witness for C4 (amended): after eight consecutive failing cycles
the backoff is pinned at 60 seconds, a successful cycle resets it to 0,
and an error-list response yields an `Ok` cycle. -/
theorem backoff_policy_amended_witness :
    backoff_run 0
      ((List.replicate 8 (AscendError.webSocket "e")).map Except.error) =
      60 ∧
    backoff_step 60 (.ok ()) = 0 ∧
    run_discovery_once (.frame (.text (some errorListResponse)) []) =
      .ok () := by
  have h := backoff_policy_amended
    (List.replicate 8 (AscendError.webSocket "e")) errorListResponse []
    60 (by decide) (by decide)
  exact ⟨h.2.1.trans (by decide), h.2.2.1, h.2.2.2.1⟩

/-- The `findRoomEntry` succeeds exactly when some state-map entry is
room-typed. -/
theorem findRoomEntry_isSome_any (entries : List (String × Json)) :
    (findRoomEntry entries).isSome =
      entries.any fun e =>
        match e.2.get "data" with
        | some ed => (ed.get "type").bind Json.asStr == some "room"
        | none => false := by
  induction entries with
  | nil => rfl
  | cons e rest ih =>
    rcases hd : e.2.get "data" with _ | ed
    · simp [findRoomEntry, hd, ih]
    · by_cases ht : (ed.get "type").bind Json.asStr = some "room"
      · simp [findRoomEntry, hd, ht]
      · simp [findRoomEntry, hd, ht, ih, beq_eq_false_iff_ne]

/-- The decode test of `parse_state_update` agrees with the
specification-side shape predicate. -/
theorem parse_state_update_isSome (resp : Response) :
    (Connection.parse_state_update resp).isSome =
      notification_is_room_update resp := by
  unfold Connection.parse_state_update notification_is_room_update
    claim_room_shape
  by_cases hm : resp.meta.method = Method.notify ∧
      resp.meta.response_type = some "network"
  · rw [if_pos hm]
    obtain ⟨h1, h2⟩ := hm
    rw [h1, h2]
    rcases hd : resp.data with _ | d
    · simp
    · rcases hs : d.get "state" with _ | st
      · simp [hs]
      · rcases ho : st.asObj with _ | entries
        · simp [hs, ho]
        · simp [hs, ho, findRoomEntry_isSome_any]
  · rw [if_neg hm]
    rcases not_and_or.mp hm with h | h
    · simp [beq_eq_false_iff_ne, h]
    · simp [beq_eq_false_iff_ne, h]

/-- C6, counterexample. A frame whose `response_type` is `"network"`
and whose data nests a room-typed entry under the state map, but whose
method tag is `read` rather than `notify`, satisfies the claim's
condition yet is neither decoded nor published — the claim's "if and
only if" fails in the "if" direction. -/
theorem non_notify_network_frame_not_published_cex :
    claim_room_shape readNetworkRoomResponse = true ∧
    Connection.parse_state_update readNetworkRoomResponse = none ∧
    (Connection.handle_message [] readNetworkRoomResponse).2 =
      Connection.HandleAction.drop := by
  exact ⟨by decide, by decide, by decide⟩

/-- Whatever `parse_state_update` decodes is a `RoomUpdate`. -/
theorem parse_state_update_shape (resp : Response) (u : StateUpdate)
    (h : Connection.parse_state_update resp = some u) :
    ∃ payload, u = StateUpdate.roomUpdate payload := by
  unfold Connection.parse_state_update at h
  repeat' split at h
  · rcases Option.map_eq_some'.mp h with ⟨p, -, hu⟩
    exact ⟨p, hu.symm⟩
  all_goals cases h

/-- C6, amended. An inbound frame whose id matches no pending
request is decoded as a RoomUpdate and published to subscribers if and
only if its method tag is `notify`, its `response_type` tag equals
`"network"`, and its data contains, nested under the state map, an entry
whose `data` object has declared type `"room"`; every other unmatched
frame is dropped silently, the pending table unchanged. -/
theorem room_update_publish_iff (resp : Response) (pending : PendingTable)
    (hnomatch : PendingTable.lookup pending resp.meta.id = none) :
    (Connection.handle_message pending resp).1 = pending ∧
    (Connection.parse_state_update resp).isSome =
      notification_is_room_update resp ∧
    (notification_is_room_update resp = false →
      (Connection.handle_message pending resp).2 =
        Connection.HandleAction.drop) ∧
    (∀ u, Connection.parse_state_update resp = some u →
      (Connection.handle_message pending resp).2 =
        Connection.HandleAction.publish u ∧
      ∃ payload, u = StateUpdate.roomUpdate payload) := by
  refine ⟨by simp [Connection.handle_message, hnomatch],
    parse_state_update_isSome resp, ?_, ?_⟩
  · intro hfalse
    have : (Connection.parse_state_update resp).isSome = false :=
      (parse_state_update_isSome resp).trans hfalse
    rcases hp : Connection.parse_state_update resp with _ | u
    · simp [Connection.handle_message, hnomatch, hp]
    · rw [hp] at this
      cases this
  · intro u hp
    exact ⟨by simp [Connection.handle_message, hnomatch, hp],
      parse_state_update_shape resp u hp⟩

/-- Witness for C6 (amended): the read-method frame is dropped silently
with the table unchanged. -/
theorem room_update_publish_iff_witness :
    (Connection.handle_message [] readNetworkRoomResponse).1 = [] ∧
    (Connection.handle_message [] readNetworkRoomResponse).2 =
      Connection.HandleAction.drop := by
  have h := room_update_publish_iff readNetworkRoomResponse [] rfl
  exact ⟨h.1, h.2.2.1 (by decide)⟩

/-- The `findRoomEntry` returns exactly the first room-typed entry. -/
theorem findRoomEntry_eq_head (entries : List (String × Json)) :
    findRoomEntry entries = (room_entries entries).head? := by
  induction entries with
  | nil => rfl
  | cons e rest ih =>
    rcases hd : e.2.get "data" with _ | ed
    · simp [findRoomEntry, room_entries, List.filterMap_cons, hd, ih,
        room_entries]
    · by_cases ht : (ed.get "type").bind Json.asStr = some "room"
      · simp [findRoomEntry, room_entries, List.filterMap_cons, hd, ht]
      · simp [findRoomEntry, room_entries, List.filterMap_cons, hd, ht, ih]

/-- The scan fold collects every room-typed entry that parses. -/
theorem scan_foldl_rooms (entries : List (String × Json))
    (acc : List RoomState) :
    entries.foldl
      (fun acc e =>
        match e.2.get "data" with
        | none => acc
        | some data_obj =>
          match (data_obj.get "type").bind Json.asStr with
          | none => acc
          | some type_str =>
            if type_str = "room" then
              match parse_room_state_from_json data_obj with
              | .ok room => acc ++ [room]
              | .error _ => acc
            else acc)
      acc =
    acc ++ (room_entries entries).filterMap
      fun d => (parse_room_state_from_json d).toOption := by
  induction entries generalizing acc with
  | nil => simp [room_entries]
  | cons e rest ih =>
    rcases hd : e.2.get "data" with _ | ed
    · simp only [List.foldl_cons, hd]
      rw [ih]
      simp [room_entries, List.filterMap_cons, hd]
    · rcases ht : (ed.get "type").bind Json.asStr with _ | t
      · simp only [List.foldl_cons, hd, ht]
        rw [ih]
        simp [room_entries, List.filterMap_cons, hd, ht]
      · by_cases hroom : t = "room"
        · subst hroom
          rcases hp : parse_room_state_from_json ed with room | err
          · simp only [List.foldl_cons, hd, ht, if_pos rfl, hp]
            rw [ih]
            simp [room_entries, List.filterMap_cons, hd, ht, hp,
              Except.toOption]
          · simp only [List.foldl_cons, hd, ht, if_pos rfl, hp]
            rw [ih]
            simp [room_entries, List.filterMap_cons, hd, ht, hp,
              Except.toOption]
        · simp only [List.foldl_cons, hd, ht, if_neg hroom]
          rw [ih]
          have : ¬ ((ed.get "type").bind Json.asStr = some "room") := by
            rw [ht]
            intro hc
            exact hroom (Option.some.inj hc)
          simp [room_entries, List.filterMap_cons, hd, this]

/-- C10. A single unmatched notification frame produces at most one
RoomUpdate even when its state map holds several room-typed entries:
`parse_state_update` decodes exactly the first room entry in the state
map's iteration order and discards the rest, while the initial scan
path `parse_rooms_from_network_data` parses every room entry. -/
theorem notification_first_room_only (meta : ResponseMeta)
    (errs : Option (List ApiError)) (d : Json)
    (entries : List (String × Json))
    (hm : meta.method = Method.notify)
    (ht : meta.response_type = some "network")
    (hs : d.get "state" = some (.obj entries)) :
    Connection.parse_state_update ⟨meta, some d, errs⟩ =
      (room_entries entries).head?.map StateUpdate.roomUpdate ∧
    parse_rooms_from_network_data d =
      .ok ((room_entries entries).filterMap
        fun j => (parse_room_state_from_json j).toOption) := by
  constructor
  · unfold Connection.parse_state_update
    rw [if_pos ⟨hm, ht⟩]
    simp only [hs]
    simp [Json.asObj, findRoomEntry_eq_head]
  · unfold parse_rooms_from_network_data
    rw [hs]
    simp only [Json.asObj]
    rw [scan_foldl_rooms entries []]
    simp

/-- Witness for C10: a frame with two room entries publishes only the
first, while the scan path parses both. -/
theorem notification_first_room_only_witness :
    Connection.parse_state_update twoRoomsNotification =
      some (StateUpdate.roomUpdate roomEntryOne) ∧
    (parse_rooms_from_network_data twoRoomsData).map
        (fun l => l.map RoomState.id) = .ok [uuidR1, uuidR2] := by
  have h := notification_first_room_only
    ⟨"ffffffff-ffff-ffff-ffff-ffffffffffff", none, .notify,
      some "network"⟩
    none twoRoomsData
    [("a", .obj [("data", roomEntryOne)]),
     ("b", .obj [("data", roomEntryTwo)])]
    rfl rfl (by decide)
  exact ⟨h.1.trans (by decide),
    (congrArg (Except.map fun l => l.map RoomState.id) h.2).trans
      (by decide)⟩

/-- Lookup after a `BTreeMap`-style insert into the rooms registry. -/
theorem lookup_roomsInsert (m : RoomsMap) (k : RoomId) (r : RoomState)
    (id : RoomId) :
    List.lookup id (m.insert k r) =
      if id = k then some r else List.lookup id m := by
  unfold RoomsMap.insert
  by_cases h : id = k
  · subst h
    rw [lookup_cons_self, if_pos rfl]
  · rw [lookup_cons_ne k r _ id h, lookup_assocRemove_ne m k id h,
      if_neg h]

/-- C7, counterexample. A scan-stage insert for an id already in the
registry replaces the existing entry (`rooms_lock.insert`,
discovery.rs:336), contradicting first-writer-wins: re-parsing room
`uuidR1` with name `New` overwrites the stored room named `Old`. -/
theorem scan_overwrites_existing_room_cex :
    parse_room_state_from_json oldRoomPayload = .ok oldRoom ∧
    parse_room_state_from_json newRoomPayload = .ok newRoom ∧
    add_scan_rooms [] [oldRoom] = [(oldRoom.id, oldRoom)] ∧
    newRoom.id = oldRoom.id ∧
    newRoom ≠ oldRoom ∧
    List.lookup oldRoom.id
        (add_scan_rooms [(oldRoom.id, oldRoom)] [newRoom]) =
      some newRoom := by
  exact ⟨by decide, by decide, by decide, by decide, by decide, by decide⟩

/-- C7, amended. The scan stage is last-writer-wins: after adding
the parsed rooms of a scan, an id maps to the last parsed room carrying
it, overwriting any existing registry entry; ids not re-parsed keep
their previous entries.  (Updates also happen via notifications, but the
scan stage itself already mutates existing entries.) -/
theorem scan_insert_last_writer_wins (reg : RoomsMap)
    (parsed : List RoomState) (id : RoomId) :
    List.lookup id (add_scan_rooms reg parsed) =
      match parsed.reverse.find? (fun r => r.id == id) with
      | some r => some r
      | none => List.lookup id reg := by
  induction parsed generalizing reg with
  | nil => simp [add_scan_rooms]
  | cons r rs ih =>
    have hstep : add_scan_rooms reg (r :: rs) =
        add_scan_rooms (reg.insert r.id r) rs := rfl
    rw [hstep, ih, List.reverse_cons, List.find?_append]
    rcases hf : rs.reverse.find? (fun r0 => r0.id == id) with _ | r0
    · rcases hb : (r.id == id) with _ | _
      · have hne : ¬ (r.id = id) := beq_eq_false_iff_ne.mp hb
        have hne2 : id ≠ r.id := fun hh => hne hh.symm
        rw [hf, lookup_roomsInsert, if_neg hne2]
        simp [List.find?, hb, hne]
      · have heq : r.id = id := beq_iff_eq.mp hb
        rw [hf, lookup_roomsInsert, if_pos heq.symm]
        simp [List.find?, hb, heq]
    · rw [hf]
      simp

/-- The `parse_room_state_from_json` stores the remapped payload as
`raw_json` in every successful parse. -/
theorem raw_json_of_parse (j : Json) (st : RoomState)
    (h : parse_room_state_from_json j = .ok st) :
    st.raw_json = remap_aes_streamer j := by
  simp only [parse_room_state_from_json] at h
  repeat' split at h
  all_goals cases h
  all_goals rfl

/-- C8, counterexample. On a payload whose `inputModes` and
`selectedInput` carry the `"AES Streamer"` label, the parse succeeds but
the snapshot's `raw_json` is the remapped payload, not the source
payload verbatim: the round-trip identity fails and the source label is
lost. -/
theorem raw_json_remap_cex :
    (parse_room_state_from_json aesRoomPayload).toOption.isSome = true ∧
    (parse_room_state_from_json aesRoomPayload).toOption.map
        RoomState.raw_json = some (remap_aes_streamer aesRoomPayload) ∧
    remap_aes_streamer aesRoomPayload ≠ aesRoomPayload ∧
    (parse_room_state_from_json aesRoomPayload).toOption.map
        RoomState.raw_json ≠ some aesRoomPayload := by
  exact ⟨by decide, by decide, by decide, by decide⟩

/-- C8, amended. For every payload the room parser accepts, the
snapshot's `raw_json` equals the source payload *after* the
`"AES Streamer"`→`"XLR"` quirk remap of `inputModes` and
`selectedInput`; for payloads the remap leaves unchanged — in
particular any payload not carrying that label in those two fields —
`raw_json` equals the source payload verbatim. -/
theorem raw_json_equals_remapped (j : Json) (st : RoomState)
    (h : parse_room_state_from_json j = .ok st) :
    st.raw_json = remap_aes_streamer j ∧
    (remap_aes_streamer j = j → st.raw_json = j) := by
  have hmain := raw_json_of_parse j st h
  exact ⟨hmain, fun hr => hmain.trans hr⟩

/-- Witness for C8 (amended): a payload without the quirky label
round-trips into `raw_json` verbatim. -/
theorem raw_json_equals_remapped_witness :
    parse_room_state_from_json oldRoomPayload = .ok oldRoom ∧
    oldRoom.raw_json = oldRoomPayload := by
  have h := raw_json_equals_remapped oldRoomPayload oldRoom (by decide)
  exact ⟨by decide, h.2 (by decide)⟩

/-- Key distinctness of the Device Link registry is preserved across a
discovery pass. -/
theorem run_pass_nodup (pass : List (String × Bool))
    (st : LinkRegistryState)
    (hnd : (st.speakers.map Prod.fst).Nodup) :
    ((run_pass st pass).speakers.map Prod.fst).Nodup := by
  induction pass generalizing st with
  | nil => simpa [run_pass] using hnd
  | cons p ps ih =>
    have hstep : run_pass st (p :: ps) =
        run_pass ((process_speaker_link st p.1 p.2).1) ps := rfl
    rw [hstep]
    refine ih _ ?_
    rcases p with ⟨ip, ok⟩
    rcases hl : List.lookup ip st.speakers with _ | l
    · rcases ok with _ | _
      · simpa [process_speaker_link, hl] using hnd
      · have hsp : ((process_speaker_link st ip true).1).speakers =
            (ip, ⟨ip, SPEAKER_PORT, st.nextConn⟩) :: st.speakers := by
          simp [process_speaker_link, hl]
        rw [hsp]
        rw [List.map_cons, List.nodup_cons]
        exact ⟨lookup_none_not_memKeys st.speakers ip hl, hnd⟩
    · simpa [process_speaker_link, hl] using hnd

/-- C9. The Device Link registry keeps at most one live link per
device address: its keys stay duplicate-free across any discovery pass,
and a pass that reports an address already present reuses the existing
link and creates no new connection (the registry state, including the
count of opened connections, is unchanged). -/
theorem device_link_at_most_one_per_address (st : LinkRegistryState)
    (hnd : (st.speakers.map Prod.fst).Nodup) :
    (∀ pass, ((run_pass st pass).speakers.map Prod.fst).Nodup) ∧
    (∀ ip l ok, List.lookup ip st.speakers = some l →
      process_speaker_link st ip ok = (st, .ok l)) := by
  refine ⟨fun pass => run_pass_nodup pass st hnd, ?_⟩
  intro ip l ok hl
  simp [process_speaker_link, hl]

/-- Witness for C9: two discovery passes reporting the same address
leave exactly one link and one opened connection. -/
theorem device_link_at_most_one_per_address_witness :
    run_pass (run_pass ⟨[], 0, 0⟩ [("10.0.0.5", true)])
        [("10.0.0.5", true)] =
      run_pass ⟨[], 0, 0⟩ [("10.0.0.5", true)] ∧
    (run_pass ⟨[], 0, 0⟩ [("10.0.0.5", true)]).connectionsOpened = 1 ∧
    ((run_pass ⟨[], 0, 0⟩ [("10.0.0.5", true)]).speakers.map
        Prod.fst).Nodup := by
  have h := device_link_at_most_one_per_address
    (run_pass ⟨[], 0, 0⟩ [("10.0.0.5", true)]) (by decide)
  have h2 := h.2 "10.0.0.5" ⟨"10.0.0.5", SPEAKER_PORT, 0⟩ true (by decide)
  refine ⟨?_, by decide, h.1 []⟩
  have hstep : run_pass (run_pass ⟨[], 0, 0⟩ [("10.0.0.5", true)])
      [("10.0.0.5", true)] =
      (process_speaker_link (run_pass ⟨[], 0, 0⟩ [("10.0.0.5", true)])
        "10.0.0.5" true).1 := rfl
  rw [hstep, h2]

end Ascend
